import Mathlib

/-!
Verification of the Plant-Identifier response-parsing and identification
pipeline (src/app/components/PlantIdentifier.tsx).

JavaScript strings are modelled as lists of characters (`JSStr`).  The
functions below are direct translations of the source:
  * `splitOn c s`   models `s.split(c)` for a one-character separator
    (always returns a non-empty list; `"" .split(c)` is `[""]`);
  * `joinOn c ps`   models `ps.join(c)`;
  * `trim s`        models `s.trim()` (the whitespace set is restricted to
    the code points that actually occur in this development);
  * `lineKey` / `lineValue` model lines 129-130 of PlantIdentifier.tsx:
    `const [key, ...valueParts] = line.split(':')` and
    `const value = valueParts.join(':').trim()` with `key.trim()`;
  * `processLine` models the `switch` body (lines 132-145);
  * `parseResponse` models `parseResponse` (lines 124-149), the record of
    possibly-unset fields being `PlantInfoP` (the TypeScript
    `Partial<PlantInfo>`; `alternativeName` is itself nullable, hence the
    double `Option`).
-/

abbrev JSStr := List Char

def isWS (c : Char) : Bool :=
  c = ' ' || c = '\t' || c = '\n' || c = '\r' ||
  c = Char.ofNat 11 || c = Char.ofNat 12 || c = Char.ofNat 0xa0 ||
  c = Char.ofNat 0x2028 || c = Char.ofNat 0x2029 || c = Char.ofNat 0xfeff

def trim (s : JSStr) : JSStr :=
  ((s.dropWhile isWS).reverse.dropWhile isWS).reverse

def splitOnCore (sep : Char) : JSStr → JSStr × List JSStr
  | [] => ([], [])
  | c :: cs =>
    let r := splitOnCore sep cs
    if c = sep then ([], r.1 :: r.2) else (c :: r.1, r.2)

def splitOn (sep : Char) (s : JSStr) : List JSStr :=
  (splitOnCore sep s).1 :: (splitOnCore sep s).2

def joinOn (sep : Char) : List JSStr → JSStr
  | [] => []
  | [p] => p
  | p :: q :: ps => p ++ sep :: joinOn sep (q :: ps)

def commonNameLabel : JSStr := "Common Name".toList

def altNameLabel : JSStr := "Alternative Name".toList

def sciNameLabel : JSStr := "Scientific Name".toList

def descLabel : JSStr := "Description".toList

def noneLit : JSStr := "None".toList

structure PlantInfoP where
  name : Option JSStr := none
  alternativeName : Option (Option JSStr) := none
  scientificName : Option JSStr := none
  description : Option JSStr := none
  deriving Repr, DecidableEq

def emptyInfo : PlantInfoP := {}

def lineKey (line : JSStr) : JSStr :=
  trim (splitOnCore ':' line).1

def lineValue (line : JSStr) : JSStr :=
  trim (joinOn ':' (splitOnCore ':' line).2)

def processLine (info : PlantInfoP) (line : JSStr) : PlantInfoP :=
  let key := lineKey line
  let value := lineValue line
  if key = commonNameLabel then { info with name := some value }
  else if key = altNameLabel then
    { info with alternativeName := some (if value = noneLit then none else some value) }
  else if key = sciNameLabel then { info with scientificName := some value }
  else if key = descLabel then { info with description := some value }
  else info

def parseLines (lines : List JSStr) : PlantInfoP :=
  lines.foldl processLine emptyInfo

def parseResponse (text : JSStr) : PlantInfoP :=
  parseLines (splitOn '\n' text)

/-- Value assigned to the `name` field by one line, if any (the
`case 'Common Name'` branch of the switch). -/
def nameAssign (l : JSStr) : Option JSStr :=
  if lineKey l = commonNameLabel then some (lineValue l) else none

/-- Value assigned to the `alternativeName` field by one line, if any (the
`case 'Alternative Name'` branch, including the `None`-to-null rule). -/
def altAssign (l : JSStr) : Option (Option JSStr) :=
  if lineKey l = altNameLabel then
    some (if lineValue l = noneLit then none else some (lineValue l))
  else none

/-- Value assigned to the `scientificName` field by one line, if any. -/
def sciAssign (l : JSStr) : Option JSStr :=
  if lineKey l = sciNameLabel then some (lineValue l) else none

/-- Value assigned to the `description` field by one line, if any. -/
def descAssign (l : JSStr) : Option JSStr :=
  if lineKey l = descLabel then some (lineValue l) else none

/-! ### Model of the component state touched by `identifyPlant`
(lines 80-122): the five `useState` cells, and the run of one
identification attempt as a function of the outcome of the
inference exchange (the `try`/`catch`/`finally` control flow). -/

structure UIState where
  selectedImage : Option JSStr
  plantInfo : Option PlantInfoP
  loading : Bool
  error : Option JSStr
  showCamera : Bool
  deriving Repr, DecidableEq

inductive ExchangeResult where
  | success (text : JSStr)
  | failure (msg : JSStr)
  deriving Repr, DecidableEq

/-- The user-visible error string built on line 117 from the thrown
error message. -/
def errorTextOf (msg : JSStr) : JSStr :=
  "Error identifying plant: ".toList ++ msg

/-- One complete run of `identifyPlant`: `setLoading(true)`,
`setError(null)`, then either `setPlantInfo(parseResponse text)` on a
successful exchange or, in the catch branch, `setError(message)` and
`setPlantInfo(null)`; `setLoading(false)` in the finally branch. -/
def identifyPlantRun (s : UIState) (r : ExchangeResult) : UIState :=
  let s1 : UIState := { s with loading := true, error := none }
  match r with
  | .success text => { s1 with plantInfo := some (parseResponse text), loading := false }
  | .failure msg =>
    { s1 with error := some (errorTextOf msg), plantInfo := none, loading := false }

/-! ### Model of the inference request (lines 86-108): the fixed prompt
template literal exactly as written in the source (leading newline,
eight-space indentation, trailing indentation before the closing
backtick), and the request pair handed to `generateContent`. -/

def apos : Char := Char.ofNat 39

def sourcePrompt : JSStr :=
  joinOn '\n'
    [ [],
      "        Identify the plant in this image and provide the following information:".toList,
      "        1. Common Name: [Primary name of the plant]".toList,
      "        2. Alternative Name: [Another common name, if applicable. If none, write \"None\"]".toList,
      "        3. Scientific Name: [Botanical name of the plant]".toList,
      "        4. Description: [A brief description of the plant".toList ++
        apos :: "s appearance, characteristics, and care requirements]".toList,
      [],
      "        Please format your response exactly as follows:".toList,
      "        Common Name: [Answer]".toList,
      "        Alternative Name: [Answer]".toList,
      "        Scientific Name: [Answer]".toList,
      "        Description: [Answer]".toList,
      "      ".toList ]

/-- Modelled from the spec: the fixed prompt literal displayed in section 6
of the specification (the dedented eleven-line block), for comparison with
the constant actually present in the source. -/
def specPrompt : JSStr :=
  joinOn '\n'
    [ "Identify the plant in this image and provide the following information:".toList,
      "1. Common Name: [Primary name of the plant]".toList,
      "2. Alternative Name: [Another common name, if applicable. If none, write \"None\"]".toList,
      "3. Scientific Name: [Botanical name of the plant]".toList,
      "4. Description: [A brief description of the plant".toList ++
        apos :: "s appearance, characteristics, and care requirements]".toList,
      [],
      "Please format your response exactly as follows:".toList,
      "Common Name: [Answer]".toList,
      "Alternative Name: [Answer]".toList,
      "Scientific Name: [Answer]".toList,
      "Description: [Answer]".toList ]

structure InlineImage where
  data : JSStr
  mimeType : JSStr
  deriving Repr, DecidableEq

/-- The pair of arguments passed to `model.generateContent([prompt, image])`
on line 108: the prompt text and the inline image object. -/
def buildRequest (img : InlineImage) : JSStr × InlineImage :=
  (sourcePrompt, img)

/-! ### Model of `capturePhoto` (lines 53-78) as its sequence of effects:
draw the video frame into the canvas, encode it as a data URL, publish the
image and hide the camera view, stop every track of the camera stream, and
only then start the inference call (the fetch/identifyPlant chain of
lines 70-75). -/

inductive CaptureEvent where
  | drawFrame
  | encodeImage
  | setImage
  | hideCamera
  | stopTrack (i : Nat)
  | issueInference
  deriving Repr, DecidableEq

/-- The effect trace of one `capturePhoto` call when the camera stream has
`n` tracks, in source order. -/
def capturePhotoTrace (n : Nat) : List CaptureEvent :=
  [.drawFrame, .encodeImage, .setImage, .hideCamera] ++
    (List.range n).map CaptureEvent.stopTrack ++ [.issueInference]


/-! ## Lemmas about the string primitives -/

theorem splitOnCore_cons_sep (sep : Char) (cs : JSStr) :
    splitOnCore sep (sep :: cs)
      = ([], (splitOnCore sep cs).1 :: (splitOnCore sep cs).2) := by
  simp [splitOnCore]

theorem splitOnCore_cons_ne (sep c : Char) (cs : JSStr) (h : c ≠ sep) :
    splitOnCore sep (c :: cs)
      = (c :: (splitOnCore sep cs).1, (splitOnCore sep cs).2) := by
  simp [splitOnCore, h]

theorem splitOnCore_append_no_sep (sep : Char) (pre s : JSStr)
    (h : ∀ c ∈ pre, c ≠ sep) :
    splitOnCore sep (pre ++ s)
      = (pre ++ (splitOnCore sep s).1, (splitOnCore sep s).2) := by
  induction pre with
  | nil => simp
  | cons c cs ih =>
    have hc : c ≠ sep := h c (by simp)
    have hcs : ∀ x ∈ cs, x ≠ sep := fun x hx => h x (by simp [hx])
    simp [splitOnCore_cons_ne sep c _ hc, ih hcs]

theorem splitOnCore_label (sep : Char) (pre rest : JSStr)
    (h : ∀ c ∈ pre, c ≠ sep) :
    splitOnCore sep (pre ++ sep :: rest)
      = (pre, (splitOnCore sep rest).1 :: (splitOnCore sep rest).2) := by
  rw [splitOnCore_append_no_sep sep pre _ h, splitOnCore_cons_sep]
  simp

theorem joinOn_cons_cons (sep : Char) (p q : JSStr) (ps : List JSStr) :
    joinOn sep (p :: q :: ps) = p ++ sep :: joinOn sep (q :: ps) := rfl

theorem joinOn_splitOnCore (sep : Char) (s : JSStr) :
    joinOn sep ((splitOnCore sep s).1 :: (splitOnCore sep s).2) = s := by
  induction s with
  | nil => rfl
  | cons c cs ih =>
    by_cases h : c = sep
    · subst h
      simp only [splitOnCore_cons_sep]
      simp [joinOn_cons_cons, ih]
    · simp only [splitOnCore_cons_ne sep c cs h]
      cases hcs : (splitOnCore sep cs).2 with
      | nil =>
        rw [hcs] at ih
        simp only [joinOn] at ih ⊢
        rw [ih]
      | cons q qs =>
        rw [hcs] at ih
        rw [joinOn_cons_cons] at ih
        simp [joinOn_cons_cons, List.cons_append, ih]

theorem lineKey_label (label rest : JSStr) (h : ∀ c ∈ label, c ≠ ':') :
    lineKey (label ++ ':' :: rest) = trim label := by
  unfold lineKey
  rw [splitOnCore_label ':' label rest h]

theorem lineValue_label (label rest : JSStr) (h : ∀ c ∈ label, c ≠ ':') :
    lineValue (label ++ ':' :: rest) = trim rest := by
  unfold lineValue
  rw [splitOnCore_label ':' label rest h]
  show trim (joinOn ':' ((splitOnCore ':' rest).1 :: (splitOnCore ':' rest).2)) = trim rest
  rw [joinOn_splitOnCore]

theorem splitOnCore_no_sep (sep : Char) (line : JSStr) (h : ∀ c ∈ line, c ≠ sep) :
    splitOnCore sep line = (line, []) := by
  have h2 := splitOnCore_append_no_sep sep line [] h
  simpa [splitOnCore] using h2

theorem lineKey_no_colon (line : JSStr) (h : ∀ c ∈ line, c ≠ ':') :
    lineKey line = trim line ∧ lineValue line = [] := by
  unfold lineKey lineValue
  rw [splitOnCore_no_sep ':' line h]
  exact ⟨rfl, rfl⟩

/-! ## Characterization of the fold over lines -/

theorem common_ne_alt : commonNameLabel ≠ altNameLabel := by decide

theorem common_ne_sci : commonNameLabel ≠ sciNameLabel := by decide

theorem common_ne_desc : commonNameLabel ≠ descLabel := by decide

theorem alt_ne_sci : altNameLabel ≠ sciNameLabel := by decide

theorem alt_ne_desc : altNameLabel ≠ descLabel := by decide

theorem sci_ne_desc : sciNameLabel ≠ descLabel := by decide

theorem getLast?_cons_or {α : Type} (v : α) (M : List α) :
    (v :: M).getLast? = M.getLast?.or (some v) := by
  induction M generalizing v with
  | nil => rfl
  | cons b M' ih => rw [List.getLast?_cons_cons, ih, Option.or_assoc, Option.or_some]

theorem processLine_name (i : PlantInfoP) (l : JSStr) :
    (processLine i l).name = (nameAssign l).or i.name := by
  by_cases h1 : lineKey l = commonNameLabel
  · simp +decide [processLine, nameAssign, h1]
  · by_cases h2 : lineKey l = altNameLabel
    · simp +decide [processLine, nameAssign, h1, h2]
    · by_cases h3 : lineKey l = sciNameLabel
      · simp +decide [processLine, nameAssign, h1, h2, h3]
      · by_cases h4 : lineKey l = descLabel <;>
          simp +decide [processLine, nameAssign, h1, h2, h3, h4]

theorem processLine_alt (i : PlantInfoP) (l : JSStr) :
    (processLine i l).alternativeName = (altAssign l).or i.alternativeName := by
  by_cases h1 : lineKey l = commonNameLabel
  · simp +decide [processLine, altAssign, h1, common_ne_alt]
  · by_cases h2 : lineKey l = altNameLabel
    · simp +decide [processLine, altAssign, h1, h2]
    · by_cases h3 : lineKey l = sciNameLabel
      · simp +decide [processLine, altAssign, h1, h2, h3]
      · by_cases h4 : lineKey l = descLabel <;>
          simp +decide [processLine, altAssign, h1, h2, h3, h4]

theorem processLine_sci (i : PlantInfoP) (l : JSStr) :
    (processLine i l).scientificName = (sciAssign l).or i.scientificName := by
  by_cases h1 : lineKey l = commonNameLabel
  · simp +decide [processLine, sciAssign, h1, common_ne_sci]
  · by_cases h2 : lineKey l = altNameLabel
    · simp +decide [processLine, sciAssign, h1, h2, alt_ne_sci]
    · by_cases h3 : lineKey l = sciNameLabel
      · simp +decide [processLine, sciAssign, h1, h2, h3]
      · by_cases h4 : lineKey l = descLabel <;>
          simp +decide [processLine, sciAssign, h1, h2, h3, h4]

theorem processLine_desc (i : PlantInfoP) (l : JSStr) :
    (processLine i l).description = (descAssign l).or i.description := by
  by_cases h1 : lineKey l = commonNameLabel
  · simp +decide [processLine, descAssign, h1, common_ne_desc]
  · by_cases h2 : lineKey l = altNameLabel
    · simp +decide [processLine, descAssign, h1, h2, alt_ne_desc]
    · by_cases h3 : lineKey l = sciNameLabel
      · simp +decide [processLine, descAssign, h1, h2, h3, sci_ne_desc]
      · by_cases h4 : lineKey l = descLabel <;>
          simp +decide [processLine, descAssign, h1, h2, h3, h4]

theorem foldl_assign {α : Type} (f : PlantInfoP → Option α) (g : JSStr → Option α)
    (hp : ∀ i l, f (processLine i l) = (g l).or (f i)) (L : List JSStr) :
    ∀ i : PlantInfoP, f (L.foldl processLine i) = ((L.filterMap g).getLast?).or (f i) := by
  induction L with
  | nil => intro i; simp
  | cons l t ih =>
    intro i
    rw [List.foldl_cons, ih, hp]
    cases hg : g l with
    | none => rw [List.filterMap_cons_none hg, Option.none_or]
    | some v =>
      rw [List.filterMap_cons_some hg, getLast?_cons_or, Option.or_assoc, Option.or_some]

theorem parseLines_name (L : List JSStr) :
    (parseLines L).name = (L.filterMap nameAssign).getLast? := by
  unfold parseLines
  rw [foldl_assign (fun p => p.name) nameAssign processLine_name L emptyInfo]
  simp [emptyInfo, Option.or_none]

theorem parseLines_alt (L : List JSStr) :
    (parseLines L).alternativeName = (L.filterMap altAssign).getLast? := by
  unfold parseLines
  rw [foldl_assign (fun p => p.alternativeName) altAssign processLine_alt L emptyInfo]
  simp [emptyInfo, Option.or_none]

theorem parseLines_sci (L : List JSStr) :
    (parseLines L).scientificName = (L.filterMap sciAssign).getLast? := by
  unfold parseLines
  rw [foldl_assign (fun p => p.scientificName) sciAssign processLine_sci L emptyInfo]
  simp [emptyInfo, Option.or_none]

theorem parseLines_desc (L : List JSStr) :
    (parseLines L).description = (L.filterMap descAssign).getLast? := by
  unfold parseLines
  rw [foldl_assign (fun p => p.description) descAssign processLine_desc L emptyInfo]
  simp [emptyInfo, Option.or_none]

theorem filterMap_if {α β : Type} (p : α → Prop) [DecidablePred p] (v : α → β)
    (L : List α) :
    L.filterMap (fun a => if p a then some (v a) else none)
      = (L.filter (fun a => p a)).map v := by
  induction L with
  | nil => rfl
  | cons a t ih => by_cases h : p a <;> simp [h, ih]

theorem parseResponse_name (text : JSStr) :
    (parseResponse text).name = ((splitOn '\n' text).filterMap nameAssign).getLast? :=
  parseLines_name _

theorem parseResponse_alt (text : JSStr) :
    (parseResponse text).alternativeName
      = ((splitOn '\n' text).filterMap altAssign).getLast? :=
  parseLines_alt _

theorem parseResponse_sci (text : JSStr) :
    (parseResponse text).scientificName
      = ((splitOn '\n' text).filterMap sciAssign).getLast? :=
  parseLines_sci _

theorem parseResponse_desc (text : JSStr) :
    (parseResponse text).description
      = ((splitOn '\n' text).filterMap descAssign).getLast? :=
  parseLines_desc _

theorem filterMap_nameAssign (L : List JSStr) :
    L.filterMap nameAssign
      = (L.filter (fun x => lineKey x = commonNameLabel)).map lineValue := by
  induction L with
  | nil => rfl
  | cons a t ih => by_cases h : lineKey a = commonNameLabel <;> simp [nameAssign, h, ih]

theorem filterMap_altAssign (L : List JSStr) :
    L.filterMap altAssign
      = (L.filter (fun x => lineKey x = altNameLabel)).map
          (fun x => if lineValue x = noneLit then none else some (lineValue x)) := by
  induction L with
  | nil => rfl
  | cons a t ih => by_cases h : lineKey a = altNameLabel <;> simp [altAssign, h, ih]

theorem filterMap_sciAssign (L : List JSStr) :
    L.filterMap sciAssign
      = (L.filter (fun x => lineKey x = sciNameLabel)).map lineValue := by
  induction L with
  | nil => rfl
  | cons a t ih => by_cases h : lineKey a = sciNameLabel <;> simp [sciAssign, h, ih]

theorem filterMap_descAssign (L : List JSStr) :
    L.filterMap descAssign
      = (L.filter (fun x => lineKey x = descLabel)).map lineValue := by
  induction L with
  | nil => rfl
  | cons a t ih => by_cases h : lineKey a = descLabel <;> simp [descAssign, h, ih]

theorem processLine_name_line (i : PlantInfoP) (rest : JSStr) :
    (processLine i (commonNameLabel ++ ':' :: rest)).name = some (trim rest) := by
  rw [processLine_name]
  have hk := lineKey_label commonNameLabel rest (by decide)
  have hv := lineValue_label commonNameLabel rest (by decide)
  simp [nameAssign, hk, hv, show trim commonNameLabel = commonNameLabel from by decide]

theorem processLine_alt_line (i : PlantInfoP) (rest : JSStr) :
    (processLine i (altNameLabel ++ ':' :: rest)).alternativeName
      = some (if trim rest = noneLit then none else some (trim rest)) := by
  rw [processLine_alt]
  have hk := lineKey_label altNameLabel rest (by decide)
  have hv := lineValue_label altNameLabel rest (by decide)
  simp [altAssign, hk, hv, show trim altNameLabel = altNameLabel from by decide]

theorem processLine_sci_line (i : PlantInfoP) (rest : JSStr) :
    (processLine i (sciNameLabel ++ ':' :: rest)).scientificName = some (trim rest) := by
  rw [processLine_sci]
  have hk := lineKey_label sciNameLabel rest (by decide)
  have hv := lineValue_label sciNameLabel rest (by decide)
  simp [sciAssign, hk, hv, show trim sciNameLabel = sciNameLabel from by decide]

theorem processLine_desc_line (i : PlantInfoP) (rest : JSStr) :
    (processLine i (descLabel ++ ':' :: rest)).description = some (trim rest) := by
  rw [processLine_desc]
  have hk := lineKey_label descLabel rest (by decide)
  have hv := lineValue_label descLabel rest (by decide)
  simp [descAssign, hk, hv, show trim descLabel = descLabel from by decide]

/-! ## Claim theorems -/

/-- Claim C3: for every line whose parsed label is Alternative Name, the
parser stores the alternativeName field as absent (null) when the trimmed
value is exactly the literal None, and stores the trimmed value verbatim
otherwise. -/
theorem c3_alternative_none_rule (i : PlantInfoP) (line : JSStr)
    (h : lineKey line = altNameLabel) :
    (processLine i line).alternativeName
      = some (if lineValue line = noneLit then none else some (lineValue line)) := by
  rw [processLine_alt]
  simp [altAssign, h]

/-- Claim C3 witness: the line `Alternative Name: None` stores an absent
alternative name, and the line `Alternative Name: Money Plant` stores the
value verbatim. -/
theorem c3_alternative_none_rule_witness :
    lineKey ("Alternative Name: None".toList) = altNameLabel ∧
    (processLine emptyInfo ("Alternative Name: None".toList)).alternativeName = some none ∧
    (processLine emptyInfo ("Alternative Name: Money Plant".toList)).alternativeName
      = some (some ("Money Plant".toList)) := by
  refine ⟨by decide, ?_, ?_⟩
  · have h := c3_alternative_none_rule emptyInfo ("Alternative Name: None".toList) (by decide)
    rw [h]; decide
  · have h := c3_alternative_none_rule emptyInfo ("Alternative Name: Money Plant".toList) (by decide)
    rw [h]; decide

/-- Claim C4: each line is split only on its first colon: for a label part
containing no colon, the parsed key is the trimmed label and the parsed
value is the trimmed remainder of the line, any further colons preserved. -/
theorem c4_first_colon_split (label rest : JSStr) (h : ∀ c ∈ label, c ≠ ':') :
    lineKey (label ++ ':' :: rest) = trim label ∧
    lineValue (label ++ ':' :: rest) = trim rest :=
  ⟨lineKey_label label rest h, lineValue_label label rest h⟩

/-- Claim C4 witness: the line `Description: Grows to 2: heights vary`
parses with value `Grows to 2: heights vary`, the second colon preserved,
and the full parser stores exactly that description. -/
theorem c4_first_colon_split_witness :
    (∀ c ∈ ("Description".toList : JSStr), c ≠ ':') ∧
    lineValue ("Description".toList ++ ':' :: " Grows to 2: heights vary".toList)
      = "Grows to 2: heights vary".toList ∧
    (parseResponse ("Description: Grows to 2: heights vary".toList)).description
      = some ("Grows to 2: heights vary".toList) := by
  refine ⟨by decide, ?_, by decide⟩
  have h := c4_first_colon_split ("Description".toList)
    (" Grows to 2: heights vary".toList) (by decide)
  rw [h.2]; decide

/-- Claim C10: a recognized label whose post-colon value trims to the empty
string stores the empty string, present but empty; in particular the
Alternative Name field becomes present-and-empty, not absent, because only
the exact literal None maps to absent. -/
theorem c10_empty_value_present (i : PlantInfoP) (ws : JSStr) (h : trim ws = []) :
    (processLine i (altNameLabel ++ ':' :: ws)).alternativeName = some (some []) ∧
    (processLine i (commonNameLabel ++ ':' :: ws)).name = some [] ∧
    (processLine i (sciNameLabel ++ ':' :: ws)).scientificName = some [] ∧
    (processLine i (descLabel ++ ':' :: ws)).description = some [] := by
  refine ⟨?_, ?_, ?_, ?_⟩
  · rw [processLine_alt_line, h]; decide
  · rw [processLine_name_line, h]
  · rw [processLine_sci_line, h]
  · rw [processLine_desc_line, h]

/-- Claim C10 witness: the exact line `Alternative Name:` stores the
alternative name as present and empty, not absent. -/
theorem c10_empty_value_present_witness :
    trim [] = ([] : JSStr) ∧
    (processLine emptyInfo (altNameLabel ++ ':' :: [])).alternativeName
      = some (some []) ∧
    (processLine emptyInfo ("Alternative Name:".toList)).alternativeName
      = some (some []) := by
  refine ⟨by decide, (c10_empty_value_present emptyInfo [] (by decide)).1, by decide⟩

/-- Claim C1 counterexample: a response containing all four labeled lines
where the Alternative Name value is the literal None.  The trimmed
post-colon text of that line is None, yet the parsed alternativeName field
is absent, not equal to that text, so the claim as stated fails. -/
theorem c1_counterexample :
    (splitOn '\n'
        ("Common Name: A\nAlternative Name: None\nScientific Name: B\nDescription: C".toList)).map
        lineKey
      = [commonNameLabel, altNameLabel, sciNameLabel, descLabel] ∧
    lineValue ("Alternative Name: None".toList) = noneLit ∧
    (parseResponse
        ("Common Name: A\nAlternative Name: None\nScientific Name: B\nDescription: C".toList)).alternativeName
      ≠ some (some noneLit) ∧
    (parseResponse
        ("Common Name: A\nAlternative Name: None\nScientific Name: B\nDescription: C".toList)).alternativeName
      = some none := by
  refine ⟨by decide, by decide, by decide, by decide⟩

/-- Claim C1 (amended): for a response text in which each of the four
recognized labels is the parsed label of exactly one line, the parser
returns that record whose name, scientificName and description fields equal
the trimmed post-colon text of the corresponding line, and whose
alternativeName equals that text as well unless it is exactly the literal
None, in which case it is stored absent. -/
theorem c1_parse_wellformed (text ln la ls ld : JSStr)
    (hn : (splitOn '\n' text).filter (fun x => lineKey x = commonNameLabel) = [ln])
    (ha : (splitOn '\n' text).filter (fun x => lineKey x = altNameLabel) = [la])
    (hs : (splitOn '\n' text).filter (fun x => lineKey x = sciNameLabel) = [ls])
    (hd : (splitOn '\n' text).filter (fun x => lineKey x = descLabel) = [ld]) :
    (parseResponse text).name = some (lineValue ln) ∧
    (parseResponse text).alternativeName
      = some (if lineValue la = noneLit then none else some (lineValue la)) ∧
    (parseResponse text).scientificName = some (lineValue ls) ∧
    (parseResponse text).description = some (lineValue ld) := by
  refine ⟨?_, ?_, ?_, ?_⟩
  · rw [parseResponse_name, filterMap_nameAssign, hn]; rfl
  · rw [parseResponse_alt, filterMap_altAssign, ha]; rfl
  · rw [parseResponse_sci, filterMap_sciAssign, hs]; rfl
  · rw [parseResponse_desc, filterMap_descAssign, hd]; rfl

/-- Claim C1 witness: a four-line response with one line per label parses
to exactly the four trimmed post-colon values. -/
theorem c1_parse_wellformed_witness :
    (parseResponse
        ("Common Name: Pothos\nAlternative Name: Money Plant\nScientific Name: Epipremnum aureum\nDescription: A trailing vine.".toList)).name
      = some ("Pothos".toList) ∧
    (parseResponse
        ("Common Name: Pothos\nAlternative Name: Money Plant\nScientific Name: Epipremnum aureum\nDescription: A trailing vine.".toList)).alternativeName
      = some (some ("Money Plant".toList)) ∧
    (parseResponse
        ("Common Name: Pothos\nAlternative Name: Money Plant\nScientific Name: Epipremnum aureum\nDescription: A trailing vine.".toList)).scientificName
      = some ("Epipremnum aureum".toList) ∧
    (parseResponse
        ("Common Name: Pothos\nAlternative Name: Money Plant\nScientific Name: Epipremnum aureum\nDescription: A trailing vine.".toList)).description
      = some ("A trailing vine.".toList) := by
  have h := c1_parse_wellformed
    ("Common Name: Pothos\nAlternative Name: Money Plant\nScientific Name: Epipremnum aureum\nDescription: A trailing vine.".toList)
    ("Common Name: Pothos".toList)
    ("Alternative Name: Money Plant".toList)
    ("Scientific Name: Epipremnum aureum".toList)
    ("Description: A trailing vine.".toList)
    (by decide) (by decide) (by decide) (by decide)
  refine ⟨?_, ?_, ?_, ?_⟩
  · rw [h.1]; decide
  · rw [h.2.1]; decide
  · rw [h.2.2.1]; decide
  · rw [h.2.2.2]; decide

/-- Claim C2 counterexample: the line `Common Name` contains no colon, yet
the parser does not leave the record unchanged: the whole line becomes the
label, the value is empty, and the name field is assigned the empty
string. -/
theorem c2_counterexample :
    (∀ c ∈ ("Common Name".toList : JSStr), c ≠ ':') ∧
    parseResponse ("Common Name".toList) ≠ emptyInfo ∧
    (parseResponse ("Common Name".toList)).name = some [] := by
  refine ⟨by decide, by decide, by decide⟩

/-- Claim C2 (amended): a line whose parsed label (for a colonless line,
the trimmed whole line) matches none of the four recognized labels leaves
the record unchanged; but a colonless line whose trimmed text equals a
recognized label, such as Common Name, assigns that field the empty
string. -/
theorem c2_unrecognized_ignored (i : PlantInfoP) (line : JSStr) :
    (lineKey line ≠ commonNameLabel → lineKey line ≠ altNameLabel →
      lineKey line ≠ sciNameLabel → lineKey line ≠ descLabel →
      processLine i line = i) ∧
    ((∀ c ∈ line, c ≠ ':') → trim line = commonNameLabel →
      processLine i line = { i with name := some [] }) := by
  constructor
  · intro h1 h2 h3 h4
    simp [processLine, h1, h2, h3, h4]
  · intro hnc ht
    have hk := (lineKey_no_colon line hnc).1
    have hv := (lineKey_no_colon line hnc).2
    rw [ht] at hk
    simp [processLine, hk, hv]

/-- Claim C2 witness: an unrecognized labeled line and a blank line leave
the record unchanged, while the colonless line `Common Name` assigns the
name field the empty string. -/
theorem c2_unrecognized_ignored_witness :
    processLine emptyInfo ("Random: x".toList) = emptyInfo ∧
    processLine emptyInfo [] = emptyInfo ∧
    processLine emptyInfo ("Common Name".toList)
      = { emptyInfo with name := some [] } := by
  refine ⟨?_, ?_, ?_⟩
  · exact (c2_unrecognized_ignored emptyInfo ("Random: x".toList)).1
      (by decide) (by decide) (by decide) (by decide)
  · exact (c2_unrecognized_ignored emptyInfo []).1
      (by decide) (by decide) (by decide) (by decide)
  · exact (c2_unrecognized_ignored emptyInfo ("Common Name".toList)).2
      (by decide) (by decide)

/-- Claim C5: when a recognized label is the parsed label of one or more
lines of the response, the corresponding field holds the value of the last
such line: the last write wins. -/
theorem c5_last_write_wins (text : JSStr) :
    (∀ l, ((splitOn '\n' text).filter (fun x => lineKey x = commonNameLabel)).getLast?
        = some l → (parseResponse text).name = some (lineValue l)) ∧
    (∀ l, ((splitOn '\n' text).filter (fun x => lineKey x = altNameLabel)).getLast?
        = some l → (parseResponse text).alternativeName
          = some (if lineValue l = noneLit then none else some (lineValue l))) ∧
    (∀ l, ((splitOn '\n' text).filter (fun x => lineKey x = sciNameLabel)).getLast?
        = some l → (parseResponse text).scientificName = some (lineValue l)) ∧
    (∀ l, ((splitOn '\n' text).filter (fun x => lineKey x = descLabel)).getLast?
        = some l → (parseResponse text).description = some (lineValue l)) := by
  refine ⟨fun l hl => ?_, fun l hl => ?_, fun l hl => ?_, fun l hl => ?_⟩
  · rw [parseResponse_name, filterMap_nameAssign, List.getLast?_map, hl]; rfl
  · rw [parseResponse_alt, filterMap_altAssign, List.getLast?_map, hl]; rfl
  · rw [parseResponse_sci, filterMap_sciAssign, List.getLast?_map, hl]; rfl
  · rw [parseResponse_desc, filterMap_descAssign, List.getLast?_map, hl]; rfl

/-- Claim C5 witness: the response `Common Name: A` then `Common Name: B`
yields name B, the value of the last Common Name line. -/
theorem c5_last_write_wins_witness :
    ((splitOn '\n' ("Common Name: A\nCommon Name: B".toList)).filter
        (fun x => lineKey x = commonNameLabel)).getLast?
      = some ("Common Name: B".toList) ∧
    (parseResponse ("Common Name: A\nCommon Name: B".toList)).name
      = some ("B".toList) := by
  constructor
  · decide
  · have h := (c5_last_write_wins ("Common Name: A\nCommon Name: B".toList)).1
      ("Common Name: B".toList) (by decide)
    rw [h]; decide

/-- Claim C6: when a required label is the parsed label of no line of the
response, the parser still returns a record, with that field left unset
rather than defaulted to the empty string. -/
theorem c6_missing_label_unset (text : JSStr) :
    ((∀ l ∈ splitOn '\n' text, lineKey l ≠ commonNameLabel) →
      (parseResponse text).name = none) ∧
    ((∀ l ∈ splitOn '\n' text, lineKey l ≠ sciNameLabel) →
      (parseResponse text).scientificName = none) ∧
    ((∀ l ∈ splitOn '\n' text, lineKey l ≠ descLabel) →
      (parseResponse text).description = none) := by
  refine ⟨fun h => ?_, fun h => ?_, fun h => ?_⟩
  · rw [parseResponse_name,
      List.filterMap_eq_nil_iff.mpr (fun a ha => by simp [nameAssign, h a ha])]
    rfl
  · rw [parseResponse_sci,
      List.filterMap_eq_nil_iff.mpr (fun a ha => by simp [sciAssign, h a ha])]
    rfl
  · rw [parseResponse_desc,
      List.filterMap_eq_nil_iff.mpr (fun a ha => by simp [descAssign, h a ha])]
    rfl

/-- Claim C6 witness: a response with no recognized required label leaves
name, scientificName and description unset. -/
theorem c6_missing_label_unset_witness :
    (∀ l ∈ splitOn '\n' ("Hello world\nAlternative Name: X".toList),
      lineKey l ≠ commonNameLabel) ∧
    (parseResponse ("Hello world\nAlternative Name: X".toList)).name = none ∧
    (parseResponse ("Hello world\nAlternative Name: X".toList)).scientificName = none ∧
    (parseResponse ("Hello world\nAlternative Name: X".toList)).description = none := by
  refine ⟨by decide, ?_, ?_, ?_⟩
  · exact (c6_missing_label_unset ("Hello world\nAlternative Name: X".toList)).1 (by decide)
  · exact (c6_missing_label_unset ("Hello world\nAlternative Name: X".toList)).2.1 (by decide)
  · exact (c6_missing_label_unset ("Hello world\nAlternative Name: X".toList)).2.2 (by decide)

/-- Claim C7: a failed identification attempt, whatever the initial
component state, sets the user-visible error to a string that contains the
underlying error text, clears the record state so no record at all is
shown, and clears the loading state; the other state cells are untouched. -/
theorem c7_failure_handling (s : UIState) (msg : JSStr) :
    identifyPlantRun s (ExchangeResult.failure msg)
      = { s with plantInfo := none, loading := false,
                 error := some (errorTextOf msg) } ∧
    List.IsSuffix msg (errorTextOf msg) := by
  exact ⟨rfl, "Error identifying plant: ".toList, rfl⟩

/-- Claim C8 counterexample: the prompt constant in the source is not
character for character equal to the section 6 literal: the source template
carries a leading newline, eight spaces of indentation on every non-empty
line and a trailing indentation line. -/
theorem c8_counterexample : sourcePrompt ≠ specPrompt := by decide

/-- Claim C8 (amended): the prompt submitted with every request is one
fixed constant, independent of the image payload and containing no
user-supplied text, so any two requests carry identical prompt text; that
constant is the section 6 literal up to line indentation and the
surrounding blank and indentation lines of the source template. -/
theorem c8_prompt_constant (img1 img2 : InlineImage) :
    (buildRequest img1).1 = (buildRequest img2).1 ∧
    (buildRequest img1).1 = sourcePrompt ∧
    (splitOn '\n' sourcePrompt).map trim
      = [] :: ((splitOn '\n' specPrompt).map trim ++ [[]]) := by
  refine ⟨rfl, rfl, by decide⟩

/-- Claim C9: in the effect trace of a capture action on a stream with n
tracks, the inference call is the final event and the stop of every track
precedes it, with no inference call issued earlier. -/
theorem c9_tracks_stopped_before_inference (n i : Nat) (h : i < n) :
    ∃ pre : List CaptureEvent,
      capturePhotoTrace n = pre ++ [CaptureEvent.issueInference] ∧
      CaptureEvent.stopTrack i ∈ pre ∧
      CaptureEvent.issueInference ∉ pre := by
  refine ⟨[CaptureEvent.drawFrame, CaptureEvent.encodeImage, CaptureEvent.setImage,
      CaptureEvent.hideCamera] ++ (List.range n).map CaptureEvent.stopTrack,
    ?_, ?_, ?_⟩
  · rw [capturePhotoTrace, List.append_assoc]
  · exact List.mem_append_right _ (List.mem_map.mpr ⟨i, List.mem_range.mpr h, rfl⟩)
  · intro hmem
    simp [List.mem_append, List.mem_map] at hmem

/-- Claim C9 witness: with a single-track stream, the stop of track 0
occurs in the trace strictly before the one inference call, which is the
final event. -/
theorem c9_tracks_stopped_before_inference_witness :
    0 < 1 ∧
    ∃ pre : List CaptureEvent,
      capturePhotoTrace 1 = pre ++ [CaptureEvent.issueInference] ∧
      CaptureEvent.stopTrack 0 ∈ pre ∧
      CaptureEvent.issueInference ∉ pre :=
  ⟨by decide, c9_tracks_stopped_before_inference 1 0 (by decide)⟩
